import Mathlib

/-!
Verification of the todo-vibecode application logic.

The definitions below are a shallow embedding of the two React components of
the repository: `src/src/App.jsx` (local-storage only) and the
supabase-enabled variant (`src/unnamed/part_000`).  The supabase-enabled
variant strictly generalises the local one (each mutation has an anonymous
branch identical to `App.jsx`), so the embedding follows `part_000` and the
anonymous mode (`userId = none`) covers `App.jsx`.

Remote calls are modelled by passing their outcome (`Except String _`,
the error carrying supabase's `error.message`) as an explicit argument to the
operation, since the code issues a single request per mutation and only
inspects success or the message.  `localStorage` under the fixed task key is
modelled as `Option (List Task)` (writes succeed; `JSON.parse ∘ JSON.stringify`
is the identity on task lists).
-/

namespace Todo

/-- A task as stored by the app: `{ id, title, done }`. -/
structure Task where
  id : Nat
  title : String
  done : Bool
deriving DecidableEq, Repr

/-- The `FILTERS` enum: `{ all, active, done }`. -/
inductive Filter
  | all
  | active
  | done
deriving DecidableEq, Repr

/-- The derivation `filteredTasks` from both components:
`active` keeps `!t.done`, `done` keeps `t.done`, otherwise the list itself. -/
def filteredTasks (filter : Filter) (tasks : List Task) : List Task :=
  match filter with
  | .active => tasks.filter (fun t => !t.done)
  | .done => tasks.filter (fun t => t.done)
  | .all => tasks

/-- A row of the remote `tasks` table: `id,title,done,user_id,created_at`. -/
structure RemoteRow where
  id : Nat
  title : String
  done : Bool
  uid : Nat
  created_at : Nat
deriving DecidableEq, Repr

/-- The remote backend visible to the session-reconciliation effect: its rows
and whether its schema has the `created_at` column (the code falls back to
ordering by `id` when the ordered select fails on `created_at`). -/
structure RemoteEnv where
  rows : List RemoteRow
  hasCreatedAt : Bool
deriving DecidableEq, Repr

/-- Descending insertion by a numeric key: used to model the row order the
backend returns for `order(col, { ascending: false })`. -/
def insertDescBy (key : RemoteRow → Nat) (r : RemoteRow) : List RemoteRow → List RemoteRow
  | [] => [r]
  | x :: xs => if key x ≤ key r then r :: x :: xs else x :: insertDescBy key r xs

/-- Descending sort by a numeric key (model of the backend order clause). -/
def sortDescBy (key : RemoteRow → Nat) : List RemoteRow → List RemoteRow
  | [] => []
  | x :: xs => insertDescBy key x (sortDescBy key xs)

/-- Modelled from the spec: the select issued by the session effect.  The
supabase client itself is not under `src/`; the code requests the rows with
`eq("user_id", uid)` ordered by `created_at` descending, retrying ordered by
`id` descending when the schema lacks `created_at`, and maps each row to
`{ id: t.id, title: t.title, done: !!t.done }`. -/
def fetchTasks (env : RemoteEnv) (uid : Nat) : List Task :=
  let rows := env.rows.filter (fun r => r.uid == uid)
  let sorted :=
    if env.hasCreatedAt then sortDescBy (fun r => r.created_at) rows
    else sortDescBy (fun r => r.id) rows
  sorted.map (fun r => { id := r.id, title := r.title, done := r.done })

/-- The component state the claims mention: the controlled input `text`, the
task list, the filter, the inline-editing state, the remote error banner, the
loading flag, the local-storage entry under `STORAGE_KEY`, and the session's
user id (`none` = anonymous mode). -/
structure AppState where
  text : String
  tasks : List Task
  filter : Filter
  editingId : Option Nat
  editingText : String
  remoteError : String
  remoteLoading : Bool
  localStore : Option (List Task)
  userId : Option Nat
deriving DecidableEq, Repr

/-- The handler `addTask`: trim the input; empty trim is a no-op.  Authenticated: insert
remotely, and only on success prepend the returned row and clear the input
(on error only `remoteError` is set).  Anonymous: prepend
`{ id: Date.now(), title, done: false }` (`now` stands for `Date.now()`). -/
def addTask (s : AppState) (now : Nat) (insertRes : Except String Task) : AppState :=
  let title := s.text.trim
  if title = "" then s
  else
    match s.userId with
    | some _ =>
      match insertRes with
      | .error msg => { s with remoteError := msg }
      | .ok row => { s with remoteError := "", tasks := row :: s.tasks, text := "" }
    | none =>
      { s with tasks := { id := now, title := title, done := false } :: s.tasks, text := "" }

/-- The optimistic map applied by `toggleTask`: set `done := nextDone` on
every task whose id matches. -/
def setDone (tasks : List Task) (id : Nat) (nextDone : Bool) : List Task :=
  tasks.map (fun t => if t.id == id then { t with done := nextDone } else t)

/-- The handler `toggleTask`: find the task; absent id is a no-op.  Authenticated: clear
the error, apply the optimistic map, issue the update; on error restore the
snapshot and surface the message.  Anonymous: just apply the map. -/
def toggleTask (s : AppState) (id : Nat) (updateRes : Except String Unit) : AppState :=
  match s.tasks.find? (fun t => t.id == id) with
  | none => s
  | some current =>
    let nextDone := !current.done
    match s.userId with
    | some _ =>
      match updateRes with
      | .error msg => { s with remoteError := msg }
      | .ok _ => { s with remoteError := "", tasks := setDone s.tasks id nextDone }
    | none => { s with tasks := setDone s.tasks id nextDone }

/-- The handler `removeTask`: filter the id out; authenticated, revert and surface the
message on remote-delete failure. -/
def removeTask (s : AppState) (id : Nat) (deleteRes : Except String Unit) : AppState :=
  match s.userId with
  | some _ =>
    match deleteRes with
    | .error msg => { s with remoteError := msg }
    | .ok _ => { s with remoteError := "", tasks := s.tasks.filter (fun t => t.id != id) }
  | none => { s with tasks := s.tasks.filter (fun t => t.id != id) }

/-- The handler `clearCompleted`: keep the tasks with `!t.done`; authenticated, revert and
surface the message on remote-delete failure. -/
def clearCompleted (s : AppState) (deleteRes : Except String Unit) : AppState :=
  match s.userId with
  | some _ =>
    match deleteRes with
    | .error msg => { s with remoteError := msg }
    | .ok _ => { s with remoteError := "", tasks := s.tasks.filter (fun t => !t.done) }
  | none => { s with tasks := s.tasks.filter (fun t => !t.done) }

/-- The handler `startEditing(task)`. -/
def startEditing (s : AppState) (task : Task) : AppState :=
  { s with editingId := some task.id, editingText := task.title }

/-- The handler `cancelEditing()`. -/
def cancelEditing (s : AppState) : AppState :=
  { s with editingId := none, editingText := "" }

/-- The map applied by `saveEditing`: set `title` on every matching task. -/
def setTitle (tasks : List Task) (id : Nat) (title : String) : List Task :=
  tasks.map (fun t => if t.id == id then { t with title := title } else t)

/-- The handler `saveEditing(id)`: empty trimmed editing text only cancels editing.
Authenticated: apply the optimistic title map, cancel editing, issue the
update; on error restore the snapshot (editing stays cancelled) and surface
the message.  Anonymous: apply the map and cancel editing. -/
def saveEditing (s : AppState) (id : Nat) (updateRes : Except String Unit) : AppState :=
  let title := s.editingText.trim
  if title = "" then cancelEditing s
  else
    match s.userId with
    | some _ =>
      match updateRes with
      | .error msg => cancelEditing { s with remoteError := msg }
      | .ok _ => cancelEditing { s with remoteError := "", tasks := setTitle s.tasks id title }
    | none => cancelEditing { s with tasks := setTitle s.tasks id title }

/-- The persistence effect (`useEffect` on `[tasks, user]`): when no user is
signed in, write the current task list to local storage. -/
def persist (s : AppState) : AppState :=
  match s.userId with
  | some _ => s
  | none => { s with localStore := some s.tasks }

/-- The sign-in half of the session effect: the render sets the session, the
persistence effect does nothing (a user is signed in), then the session effect
fetches the user's rows; on fetch failure only the error message is set, on
success the rows replace the task list and editing state is reset. -/
def signInStep (s : AppState) (uid : Nat) (env : RemoteEnv) (fetchErr : Option String) : AppState :=
  let s1 := { s with userId := some uid }
  match fetchErr with
  | some msg => { s1 with remoteError := msg, remoteLoading := false }
  | none =>
    { s1 with
      tasks := fetchTasks env uid
      editingId := none
      editingText := ""
      remoteError := ""
      remoteLoading := false }

/-- The sign-out transition.  Effects run in declaration order after the
render that clears the session: the persistence effect runs first (the user is
now `null`, so it writes the current — remote-sourced — task list to local
storage), and only then does the session effect read local storage back and
`setTasks` the parsed value; the subsequent render persists again. -/
def signOutStep (s : AppState) : AppState :=
  match s.userId with
  | none => s
  | some _ =>
    let s1 := persist { s with userId := none }
    let s2 :=
      match s1.localStore with
      | some saved => { s1 with tasks := saved, remoteError := "", remoteLoading := false }
      | none => { s1 with remoteError := "", remoteLoading := false }
    persist s2

/-- One user-visible event, with the outcome of any remote request it issues
carried as data (`Date.now()` likewise, for the anonymous add). -/
inductive Op
  | setText (t : String)
  | setFilter (f : Filter)
  | add (now : Nat) (insertRes : Except String Task)
  | toggle (id : Nat) (res : Except String Unit)
  | remove (id : Nat) (res : Except String Unit)
  | clear (res : Except String Unit)
  | startEdit (t : Task)
  | setEditText (t : String)
  | cancelEdit
  | saveEdit (id : Nat) (res : Except String Unit)
  | signIn (uid : Nat) (env : RemoteEnv) (fetchErr : Option String)
  | signOut

/-- One event followed by the persistence effect of the re-render (a no-op
while signed in; the session transitions already sequence their effects). -/
def step (s : AppState) : Op → AppState
  | .setText t => persist { s with text := t }
  | .setFilter f => persist { s with filter := f }
  | .add now res => persist (addTask s now res)
  | .toggle id res => persist (toggleTask s id res)
  | .remove id res => persist (removeTask s id res)
  | .clear res => persist (clearCompleted s res)
  | .startEdit t => persist (startEditing s t)
  | .setEditText t => persist { s with editingText := t }
  | .cancelEdit => persist (cancelEditing s)
  | .saveEdit id res => persist (saveEditing s id res)
  | .signIn uid env fetchErr => signInStep s uid env fetchErr
  | .signOut => signOutStep s

/-- Run a sequence of events. -/
def runOps (s : AppState) : List Op → AppState
  | [] => s
  | op :: rest => runOps (step s op) rest

/-- The default tasks of a fresh store, and the state after the first render's
effects (local storage already holds the default list). -/
def initialTasks : List Task :=
  [{ id := 1, title := "Сделать первый вайб-проект 😎", done := false },
   { id := 2, title := "Добавить задачу", done := false }]

def initState : AppState :=
  { text := ""
    tasks := initialTasks
    filter := .all
    editingId := none
    editingText := ""
    remoteError := ""
    remoteLoading := false
    localStore := some initialTasks
    userId := none }

/-! ### Helper lemmas -/

/-- A map that fixes every element of a list is the identity on it. -/
theorem map_eq_self {α : Type} {l : List α} {f : α → α} (h : ∀ a ∈ l, f a = a) :
    l.map f = l := by
  induction l with
  | nil => rfl
  | cons x xs ih =>
    simp only [List.map_cons, h x (by simp)]
    rw [ih (fun a ha => h a (by simp [ha]))]

/-- Concrete evaluation of `String.trim` (its recursion does not reduce in the
kernel, so the witnesses use these). -/
theorem trim_empty : "".trim = "" := by
  simp +decide [String.trim, Substring.trim, String.toSubstring, Substring.takeWhileAux,
    Substring.takeRightWhileAux, Substring.toString, String.endPos, String.utf8ByteSize]

theorem trim_x : "x".trim = "x" := by
  simp +decide [String.trim, Substring.trim, String.toSubstring, Substring.takeWhileAux,
    Substring.takeRightWhileAux, Substring.toString, String.endPos, String.utf8ByteSize]

theorem trim_a : "a".trim = "a" := by
  simp +decide [String.trim, Substring.trim, String.toSubstring, Substring.takeWhileAux,
    Substring.takeRightWhileAux, Substring.toString, String.endPos, String.utf8ByteSize]

theorem trim_b : "b".trim = "b" := by
  simp +decide [String.trim, Substring.trim, String.toSubstring, Substring.takeWhileAux,
    Substring.takeRightWhileAux, Substring.toString, String.endPos, String.utf8ByteSize]

/-! ### Claim C2: the filter derivation -/

/-- C2: filtering by `active` yields no task with `done = true`, filtering by
`done` yields no task with `done = false`, and filtering by `all` returns the
input list itself, element for element (the derivation is a pure function of
the list, so the underlying list is never mutated). -/
theorem filteredTasks_correct (tasks : List Task) :
    (filteredTasks .active tasks).all (fun t => !t.done) = true ∧
    (filteredTasks .done tasks).all (fun t => t.done) = true ∧
    filteredTasks .all tasks = tasks := by
  refine ⟨?_, ?_, rfl⟩ <;>
    simp only [filteredTasks, List.all_eq_true, List.mem_filter] <;>
    exact fun t ht => ht.2

/-! ### Claim C6: clear-completed -/

/-- C6: in anonymous mode (for any remote outcome, none is issued) and in
authenticated mode with a successful remote delete, clear-completed leaves
exactly the tasks with `done = false`, unmodified and in their original
relative order (the result is the `done = false` filter of the list, a
sublist containing no completed task). -/
theorem clearCompleted_correct (s : AppState) (uid : Nat) (res : Except String Unit) :
    (clearCompleted { s with userId := none } res).tasks = s.tasks.filter (fun t => !t.done) ∧
    (clearCompleted { s with userId := some uid } (Except.ok ())).tasks
      = s.tasks.filter (fun t => !t.done) ∧
    (s.tasks.filter (fun t => !t.done)).all (fun t => !t.done) = true ∧
    List.Sublist (s.tasks.filter (fun t => !t.done)) s.tasks := by
  refine ⟨rfl, rfl, ?_, List.filter_sublist _⟩
  simp only [List.all_eq_true, List.mem_filter]
  exact fun t ht => ht.2

/-! ### Claim C10: operations on an absent id -/

/-- C10: when no task in the list has the given id, toggle, remove, and
save-edit leave the task list unchanged, whatever the remote outcome. -/
theorem absent_id_noop (s : AppState) (id : Nat) (h : ∀ t ∈ s.tasks, t.id ≠ id) :
    (∀ res, (toggleTask s id res).tasks = s.tasks) ∧
    (∀ res, (removeTask s id res).tasks = s.tasks) ∧
    (∀ res, (saveEditing s id res).tasks = s.tasks) := by
  have hfind : s.tasks.find? (fun t => t.id == id) = none :=
    List.find?_eq_none.mpr (fun t ht => by simp [h t ht])
  have hfilter : s.tasks.filter (fun t => t.id != id) = s.tasks :=
    List.filter_eq_self.mpr (fun t ht => by simp [h t ht])
  have hmap : ∀ title, setTitle s.tasks id title = s.tasks := by
    intro title
    exact map_eq_self (fun t ht => by simp [h t ht])
  refine ⟨?_, ?_, ?_⟩ <;> intro res
  · simp [toggleTask, hfind]
  · cases hu : s.userId with
    | none => simp [removeTask, hu, hfilter]
    | some uid => cases res <;> simp [removeTask, hu, hfilter]
  · by_cases htrim : s.editingText.trim = ""
    · simp [saveEditing, htrim, cancelEditing]
    · cases hu : s.userId with
      | none => simp [saveEditing, htrim, hu, cancelEditing, hmap]
      | some uid => cases res <;> simp [saveEditing, htrim, hu, cancelEditing, hmap]

def c10State : AppState := { initState with tasks := [⟨5, "A", false⟩] }

theorem absent_id_noop_witness :
    (∀ t ∈ c10State.tasks, t.id ≠ 9) ∧
    (∀ res, (toggleTask c10State 9 res).tasks = c10State.tasks) ∧
    (∀ res, (removeTask c10State 9 res).tasks = c10State.tasks) :=
  ⟨by decide,
   (absent_id_noop c10State 9 (by decide)).1,
   (absent_id_noop c10State 9 (by decide)).2.1⟩

/-! ### Claim C1: rollback and error surfacing on remote failure -/

/-- C1: in authenticated mode, when the remote request of a toggle (on a
present id), delete, bulk-clear, or edit commit (with non-empty trimmed text)
fails with message `msg ≠ ""`, the task list after the operation equals the
pre-mutation snapshot and `remoteError` holds the (non-empty) failure
message. -/
theorem remote_failure_rollback (s : AppState) (uid id : Nat) (msg : String)
    (hu : s.userId = some uid) (hm : msg ≠ "") :
    ((s.tasks.find? (fun t => t.id == id)).isSome = true →
      (toggleTask s id (Except.error msg)).tasks = s.tasks ∧
      (toggleTask s id (Except.error msg)).remoteError = msg ∧
      (toggleTask s id (Except.error msg)).remoteError ≠ "") ∧
    ((removeTask s id (Except.error msg)).tasks = s.tasks ∧
     (removeTask s id (Except.error msg)).remoteError = msg ∧
     (removeTask s id (Except.error msg)).remoteError ≠ "") ∧
    ((clearCompleted s (Except.error msg)).tasks = s.tasks ∧
     (clearCompleted s (Except.error msg)).remoteError = msg ∧
     (clearCompleted s (Except.error msg)).remoteError ≠ "") ∧
    (s.editingText.trim ≠ "" →
      (saveEditing s id (Except.error msg)).tasks = s.tasks ∧
      (saveEditing s id (Except.error msg)).remoteError = msg ∧
      (saveEditing s id (Except.error msg)).remoteError ≠ "") := by
  refine ⟨?_, ?_, ?_, ?_⟩
  · intro hsome
    cases hfind : s.tasks.find? (fun t => t.id == id) with
    | none => rw [hfind] at hsome; simp at hsome
    | some current => simp [toggleTask, hfind, hu, hm]
  · simp [removeTask, hu, hm]
  · simp [clearCompleted, hu, hm]
  · intro htrim
    simp [saveEditing, htrim, hu, cancelEditing, hm]

def c1State : AppState :=
  { initState with userId := some 1, tasks := [⟨5, "A", false⟩], editingText := "x" }

theorem remote_failure_rollback_witness :
    c1State.userId = some 1 ∧ ("boom" : String) ≠ "" ∧
    (c1State.tasks.find? (fun t => t.id == 5)).isSome = true ∧
    (toggleTask c1State 5 (Except.error "boom")).tasks = c1State.tasks ∧
    (toggleTask c1State 5 (Except.error "boom")).remoteError ≠ "" ∧
    (removeTask c1State 5 (Except.error "boom")).tasks = c1State.tasks :=
  ⟨rfl, by decide, by decide,
   ((remote_failure_rollback c1State 1 5 "boom" rfl (by decide)).1 (by decide)).1,
   ((remote_failure_rollback c1State 1 5 "boom" rfl (by decide)).1 (by decide)).2.2,
   (remote_failure_rollback c1State 1 5 "boom" rfl (by decide)).2.1.1⟩

/-! ### Claim C3: the add operation -/

def c3AuthState : AppState := { initState with text := "x", userId := some 7 }

/-- C3 counterexample: in authenticated mode with non-empty trimmed input,
a failing remote insert does not increase the list length (the code returns
after setting the error, leaving tasks and input unchanged), refuting the
claim that the non-empty-add behaviour holds "including when the
authenticated-mode remote insert fails". -/
theorem addTask_failure_counterexample :
    ¬ ((addTask c3AuthState 0 (Except.error "boom")).tasks.length
        = c3AuthState.tasks.length + 1 ∧
       (addTask c3AuthState 0 (Except.error "boom")).text = "") := by
  have hx : c3AuthState.text.trim = "x" := by
    rw [show c3AuthState.text = "x" from rfl, trim_x]
  have h : addTask c3AuthState 0 (Except.error "boom")
      = { c3AuthState with remoteError := "boom" } := by
    rw [addTask, hx]
    simp [show c3AuthState.userId = some 7 from rfl]
  rw [h]
  decide

/-- C3 amended: empty trimmed input is a no-op in every mode; non-empty
trimmed input increases the length by one and clears the input in anonymous
mode and in authenticated mode when the remote insert succeeds; when the
authenticated-mode insert fails, the task list and the input text are both
unchanged and the failure message is surfaced instead. -/
theorem addTask_correct (s : AppState) (now uid : Nat) (row : Task) (msg : String) :
    (s.text.trim = "" → ∀ res, addTask s now res = s) ∧
    (s.text.trim ≠ "" → s.userId = none →
      ∀ res, (addTask s now res).tasks.length = s.tasks.length + 1 ∧
             (addTask s now res).text = "") ∧
    (s.text.trim ≠ "" → s.userId = some uid →
      (addTask s now (Except.ok row)).tasks.length = s.tasks.length + 1 ∧
      (addTask s now (Except.ok row)).text = "") ∧
    (s.text.trim ≠ "" → s.userId = some uid →
      (addTask s now (Except.error msg)).tasks = s.tasks ∧
      (addTask s now (Except.error msg)).text = s.text ∧
      (addTask s now (Except.error msg)).remoteError = msg) := by
  refine ⟨?_, ?_, ?_, ?_⟩
  · intro htrim res
    simp [addTask, htrim]
  · intro htrim hu res
    simp [addTask, htrim, hu]
  · intro htrim hu
    simp [addTask, htrim, hu]
  · intro htrim hu
    simp [addTask, htrim, hu]

def c3AnonState : AppState := { initState with text := "x" }

theorem addTask_correct_witness :
    c3AnonState.text.trim ≠ "" ∧ c3AnonState.userId = none ∧
    (addTask c3AnonState 5 (Except.error "")).tasks.length
      = c3AnonState.tasks.length + 1 ∧
    (addTask c3AnonState 5 (Except.error "")).text = "" := by
  have hx : c3AnonState.text.trim ≠ "" := by
    rw [show c3AnonState.text = "x" from rfl, trim_x]
    decide
  exact ⟨hx, rfl,
    ((addTask_correct c3AnonState 5 0 ⟨0, "", false⟩ "").2.1 hx rfl (Except.error "")).1,
    ((addTask_correct c3AnonState 5 0 ⟨0, "", false⟩ "").2.1 hx rfl (Except.error "")).2⟩

/-! ### Claim C7: toggling twice is the identity -/

/-- Members of a list whose mapped ids are `Nodup` are determined by their
id. -/
theorem eq_of_mem_of_id_eq {l : List Task} (hnd : (l.map Task.id).Nodup)
    {a b : Task} (ha : a ∈ l) (hb : b ∈ l) (hid : a.id = b.id) : a = b :=
  List.inj_on_of_nodup_map hnd ha hb hid

/-- C7: in authenticated mode with both remote updates succeeding, toggling a
present id twice yields the original task list (stated under the id-uniqueness
invariant of the data model). -/
theorem toggle_involution (s : AppState) (id uid : Nat)
    (hu : s.userId = some uid)
    (hsome : (s.tasks.find? (fun t => t.id == id)).isSome = true)
    (hnd : (s.tasks.map Task.id).Nodup) :
    (toggleTask (toggleTask s id (Except.ok ())) id (Except.ok ())).tasks = s.tasks := by
  obtain ⟨current, hfind⟩ := Option.isSome_iff_exists.mp hsome
  have hcur : (current.id == id) = true :=
    @List.find?_some Task (fun t => t.id == id) current s.tasks hfind
  have hcurmem : current ∈ s.tasks := List.mem_of_find?_eq_some hfind
  have hcurid : current.id = id := by simpa using hcur
  set g1 : Task → Task :=
    fun t => if t.id == id then { t with done := !current.done } else t with hg1
  have h1 : toggleTask s id (Except.ok ())
      = { s with remoteError := "", tasks := s.tasks.map g1 } := by
    rw [toggleTask, hfind]
    simp [hu, setDone, hg1]
  have hfind2 : (s.tasks.map g1).find? (fun t => t.id == id)
      = some { current with done := !current.done } := by
    rw [List.find?_map]
    have hcong : ((fun t => t.id == id) ∘ g1) = (fun t => t.id == id) := by
      funext t
      by_cases h : t.id = id <;> simp [hg1, h]
    rw [hcong, hfind]
    simp [hg1, hcurid]
  set g2 : Task → Task :=
    fun t => if t.id == id then { t with done := !!current.done } else t with hg2
  have h2 : (toggleTask (toggleTask s id (Except.ok ())) id (Except.ok ())).tasks
      = (s.tasks.map g1).map g2 := by
    rw [h1, toggleTask]
    simp only [hfind2]
    simp [hu, setDone, hg2]
  rw [h2, List.map_map]
  apply map_eq_self
  intro t ht
  by_cases h : t.id = id
  · have hteq : t = current := eq_of_mem_of_id_eq hnd ht hcurmem (h.trans hcurid.symm)
    simp [hg1, hg2, h, hteq, hcurid]
    rw [← hcurid]
  · simp [hg1, hg2, h]

def c7State : AppState :=
  { initState with userId := some 1, tasks := [⟨5, "A", false⟩, ⟨6, "B", true⟩] }

theorem toggle_involution_witness :
    c7State.userId = some 1 ∧
    (c7State.tasks.find? (fun t => t.id == 6)).isSome = true ∧
    (c7State.tasks.map Task.id).Nodup ∧
    (toggleTask (toggleTask c7State 6 (Except.ok ())) 6 (Except.ok ())).tasks
      = c7State.tasks :=
  ⟨rfl, by decide, by decide,
   toggle_involution c7State 6 1 rfl (by decide) (by decide)⟩

/-! ### Claim C9: the toggle frame property -/

/-- C9: toggling a present id (anonymously, or authenticated with a
successful update) preserves the length, the id sequence, and the title
sequence of the list; every task at a position whose id differs is unchanged,
and the task with the given id only has its `done` flag negated (stated under
the id-uniqueness invariant of the data model). -/
theorem toggle_frame (s : AppState) (id : Nat) (r : Except String Unit)
    (hsome : (s.tasks.find? (fun t => t.id == id)).isSome = true)
    (hnd : (s.tasks.map Task.id).Nodup)
    (hmode : s.userId = none ∨ r = Except.ok ()) :
    (toggleTask s id r).tasks.length = s.tasks.length ∧
    (toggleTask s id r).tasks.map Task.id = s.tasks.map Task.id ∧
    (toggleTask s id r).tasks.map Task.title = s.tasks.map Task.title ∧
    ∀ i (hi : i < s.tasks.length) (hi2 : i < (toggleTask s id r).tasks.length),
      (s.tasks[i].id ≠ id → (toggleTask s id r).tasks[i] = s.tasks[i]) ∧
      (s.tasks[i].id = id →
        (toggleTask s id r).tasks[i] = { s.tasks[i] with done := !s.tasks[i].done }) := by
  obtain ⟨current, hfind⟩ := Option.isSome_iff_exists.mp hsome
  have hcurid : current.id = id := by
    simpa using @List.find?_some Task (fun t => t.id == id) current s.tasks hfind
  have hcurmem : current ∈ s.tasks := List.mem_of_find?_eq_some hfind
  set g : Task → Task :=
    fun t => if t.id == id then { t with done := !current.done } else t with hg
  have htasks : (toggleTask s id r).tasks = s.tasks.map g := by
    rcases hmode with hnone | hok
    · rw [toggleTask, hfind]
      simp [hnone, setDone, hg]
    · subst hok
      cases hu : s.userId with
      | none => rw [toggleTask, hfind]; simp [hu, setDone, hg]
      | some uid => rw [toggleTask, hfind]; simp [hu, setDone, hg]
  have hid : Task.id ∘ g = Task.id := by
    funext t
    by_cases h : t.id = id <;> simp [hg, h]
  have htitle : Task.title ∘ g = Task.title := by
    funext t
    by_cases h : t.id = id <;> simp [hg, h]
  refine ⟨by rw [htasks]; simp, ?_, ?_, ?_⟩
  · rw [htasks, List.map_map, hid]
  · rw [htasks, List.map_map, htitle]
  · intro i hi hi2
    have hgetg : (toggleTask s id r).tasks[i] = g (s.tasks[i]) := by
      simp [htasks]
    constructor
    · intro hne
      rw [hgetg]
      simp [hg, hne]
    · intro heq
      have hmem : s.tasks[i] ∈ s.tasks := List.getElem_mem hi
      have hteq : s.tasks[i] = current :=
        eq_of_mem_of_id_eq hnd hmem hcurmem (heq.trans hcurid.symm)
      rw [hgetg]
      simp [hg, heq, hteq, hcurid]

def c9State : AppState := { initState with tasks := [⟨5, "A", false⟩, ⟨6, "B", true⟩] }

theorem toggle_frame_witness :
    (c9State.tasks.find? (fun t => t.id == 5)).isSome = true ∧
    (c9State.tasks.map Task.id).Nodup ∧
    (c9State.userId = none ∨ (Except.ok () : Except String Unit) = Except.ok ()) ∧
    (toggleTask c9State 5 (Except.ok ())).tasks.length = c9State.tasks.length ∧
    (toggleTask c9State 5 (Except.ok ())).tasks.map Task.id = c9State.tasks.map Task.id :=
  ⟨by decide, by decide, Or.inl rfl,
   (toggle_frame c9State 5 (Except.ok ()) (by decide) (by decide) (Or.inl rfl)).1,
   (toggle_frame c9State 5 (Except.ok ()) (by decide) (by decide) (Or.inl rfl)).2.1⟩

/-! ### Claim C8: the edit boundary rejects blank titles -/

/-- C8: committing an edit whose trimmed text is empty (the code's test for an
empty or whitespace-only input) leaves every task — in particular every
title — unchanged and only clears the editing state, in every mode and for
every remote outcome; moreover, when every current title is non-empty, the
save-edit and add operations keep every title non-empty (the only titles they
ever install are the non-empty trimmed input, or, for the authenticated add,
the echoed inserted row, required non-empty), so no operation hands a task an
empty title. -/
theorem edit_boundary (s : AppState) (id now : Nat) (res : Except String Unit)
    (ires : Except String Task) :
    (s.editingText.trim = "" →
      (saveEditing s id res).tasks = s.tasks ∧
      (saveEditing s id res).editingId = none ∧
      (saveEditing s id res).editingText = "") ∧
    ((∀ t ∈ s.tasks, t.title ≠ "") →
      (∀ t ∈ (saveEditing s id res).tasks, t.title ≠ "") ∧
      ((∀ row, ires = Except.ok row → row.title ≠ "") →
        ∀ t ∈ (addTask s now ires).tasks, t.title ≠ "")) := by
  constructor
  · intro htrim
    simp [saveEditing, htrim, cancelEditing]
  · intro hmain
    have hset : ∀ title, title ≠ "" → ∀ t ∈ setTitle s.tasks id title, t.title ≠ "" := by
      intro title hT t ht
      rcases List.mem_map.mp ht with ⟨a, ha, rfl⟩
      by_cases h : a.id = id
      · simpa [h] using hT
      · simpa [h] using hmain a ha
    constructor
    · by_cases htrim : s.editingText.trim = ""
      · intro t ht
        simp [saveEditing, htrim, cancelEditing] at ht
        exact hmain t ht
      · intro t ht
        cases hu : s.userId with
        | none =>
          simp [saveEditing, htrim, hu, cancelEditing] at ht
          exact hset _ htrim t ht
        | some uid =>
          cases res with
          | error msg =>
            simp [saveEditing, htrim, hu, cancelEditing] at ht
            exact hmain t ht
          | ok u =>
            simp [saveEditing, htrim, hu, cancelEditing] at ht
            exact hset _ htrim t ht
    · intro hrow t ht
      by_cases htrim : s.text.trim = ""
      · simp [addTask, htrim] at ht
        exact hmain t ht
      · cases hu : s.userId with
        | none =>
          simp [addTask, htrim, hu] at ht
          rcases ht with rfl | ht
          · exact htrim
          · exact hmain t ht
        | some uid =>
          cases ires with
          | error msg =>
            simp [addTask, htrim, hu] at ht
            exact hmain t ht
          | ok row =>
            simp [addTask, htrim, hu] at ht
            rcases ht with rfl | ht
            · exact hrow t rfl
            · exact hmain t ht

def c8State : AppState := { initState with editingText := "", tasks := [⟨5, "A", false⟩] }

theorem edit_boundary_witness :
    c8State.editingText.trim = "" ∧
    (saveEditing c8State 5 (Except.error "boom")).tasks = c8State.tasks ∧
    (saveEditing c8State 5 (Except.error "boom")).editingId = none ∧
    (∀ t ∈ c8State.tasks, t.title ≠ "") ∧
    (∀ t ∈ (saveEditing c8State 5 (Except.error "boom")).tasks, t.title ≠ "") := by
  have htrim : c8State.editingText.trim = "" := by
    rw [show c8State.editingText = "" from rfl, trim_empty]
  refine ⟨htrim, ?_, ?_, by decide, ?_⟩
  · exact ((edit_boundary c8State 5 0 (Except.error "boom") (Except.error "")).1 htrim).1
  · exact ((edit_boundary c8State 5 0 (Except.error "boom") (Except.error "")).1 htrim).2.1
  · exact ((edit_boundary c8State 5 0 (Except.error "boom") (Except.error "")).2 (by decide)).1

/-! ### Claim C4: uniqueness of ids across reachable states -/

/-- The data-model invariant: no two tasks of the list share an id. -/
def idsNodup (ts : List Task) : Prop := (ts.map Task.id).Nodup

instance (ts : List Task) : Decidable (idsNodup ts) :=
  inferInstanceAs (Decidable ((ts.map Task.id).Nodup))

/-- The invariant together with its strengthening to the stored snapshot. -/
def inv (s : AppState) : Prop :=
  idsNodup s.tasks ∧ ∀ l, s.localStore = some l → idsNodup l

/-- Freshness of the environment-chosen identifiers: the anonymous add's
`Date.now()` value (resp. the backend-assigned id of a successful
authenticated insert) does not already occur in the list, and a sign-in load
returns rows with pairwise distinct ids.  All other events need nothing. -/
def opOk (s : AppState) : Op → Bool
  | .add now res =>
    (match s.userId, res with
     | some _, Except.ok row => !((s.tasks.map Task.id).contains row.id)
     | some _, Except.error _ => true
     | none, _ => !((s.tasks.map Task.id).contains now))
  | .signIn uid env fetchErr =>
    (match fetchErr with
     | none => decide (idsNodup (fetchTasks env uid))
     | some _ => true)
  | _ => true

def traceOk (s : AppState) : List Op → Bool
  | [] => true
  | op :: rest => opOk s op && traceOk (step s op) rest

theorem ids_setDone (ts : List Task) (id : Nat) (d : Bool) :
    (setDone ts id d).map Task.id = ts.map Task.id := by
  rw [setDone, List.map_map]
  have : (Task.id ∘ fun t => if t.id == id then { t with done := d } else t) = Task.id := by
    funext t
    by_cases h : t.id = id <;> simp [h]
  rw [this]

theorem ids_setTitle (ts : List Task) (id : Nat) (title : String) :
    (setTitle ts id title).map Task.id = ts.map Task.id := by
  rw [setTitle, List.map_map]
  have : (Task.id ∘ fun t => if t.id == id then { t with title := title } else t) = Task.id := by
    funext t
    by_cases h : t.id = id <;> simp [h]
  rw [this]

theorem idsNodup_filter (ts : List Task) (p : Task → Bool) (h : idsNodup ts) :
    idsNodup (ts.filter p) :=
  h.sublist ((List.filter_sublist ts).map Task.id)

theorem persist_inv (s : AppState) (h : inv s) : inv (persist s) := by
  obtain ⟨h1, h2⟩ := h
  cases hu : s.userId with
  | none =>
    have he : persist s = { s with localStore := some s.tasks } := by simp [persist, hu]
    rw [he]
    exact ⟨h1, fun l hl => by rw [← Option.some.inj hl]; exact h1⟩
  | some uid =>
    have he : persist s = s := by simp [persist, hu]
    rw [he]
    exact ⟨h1, h2⟩

theorem step_inv (s : AppState) (op : Op) (h : inv s) (hok : opOk s op = true) :
    inv (step s op) := by
  obtain ⟨h1, h2⟩ := h
  cases op with
  | setText t => exact persist_inv { s with text := t } ⟨h1, h2⟩
  | setFilter f => exact persist_inv { s with filter := f } ⟨h1, h2⟩
  | startEdit t => exact persist_inv (startEditing s t) ⟨h1, h2⟩
  | setEditText t => exact persist_inv { s with editingText := t } ⟨h1, h2⟩
  | cancelEdit => exact persist_inv (cancelEditing s) ⟨h1, h2⟩
  | add now res =>
    refine persist_inv (addTask s now res) ?_
    by_cases htrim : s.text.trim = ""
    · have he : addTask s now res = s := by simp [addTask, htrim]
      rw [he]
      exact ⟨h1, h2⟩
    · cases hu : s.userId with
      | none =>
        have hfresh : now ∉ s.tasks.map Task.id := by
          simp only [opOk, hu] at hok
          simpa using hok
        have he : addTask s now res
            = { s with tasks := { id := now, title := s.text.trim, done := false } :: s.tasks,
                       text := "" } := by
          simp [addTask, htrim, hu]
        rw [he]
        exact ⟨by simpa [idsNodup] using List.nodup_cons.mpr ⟨hfresh, h1⟩, h2⟩
      | some uid =>
        cases res with
        | error msg =>
          have he : addTask s now (Except.error msg) = { s with remoteError := msg } := by
            simp [addTask, htrim, hu]
          rw [he]
          exact ⟨h1, h2⟩
        | ok row =>
          have hfresh : row.id ∉ s.tasks.map Task.id := by
            simp only [opOk, hu] at hok
            simpa using hok
          have he : addTask s now (Except.ok row)
              = { s with remoteError := "", tasks := row :: s.tasks, text := "" } := by
            simp [addTask, htrim, hu]
          rw [he]
          exact ⟨by simpa [idsNodup] using List.nodup_cons.mpr ⟨hfresh, h1⟩, h2⟩
  | toggle id res =>
    refine persist_inv (toggleTask s id res) ?_
    cases hfind : s.tasks.find? (fun t => t.id == id) with
    | none =>
      have he : toggleTask s id res = s := by simp [toggleTask, hfind]
      rw [he]
      exact ⟨h1, h2⟩
    | some current =>
      have hset : idsNodup (setDone s.tasks id (!current.done)) := by
        rw [idsNodup, ids_setDone]
        exact h1
      cases hu : s.userId with
      | none =>
        have he : toggleTask s id res
            = { s with tasks := setDone s.tasks id (!current.done) } := by
          simp [toggleTask, hfind, hu]
        rw [he]
        exact ⟨hset, h2⟩
      | some uid =>
        cases res with
        | error msg =>
          have he : toggleTask s id (Except.error msg) = { s with remoteError := msg } := by
            simp [toggleTask, hfind, hu]
          rw [he]
          exact ⟨h1, h2⟩
        | ok u =>
          have he : toggleTask s id (Except.ok u)
              = { s with remoteError := "", tasks := setDone s.tasks id (!current.done) } := by
            simp [toggleTask, hfind, hu]
          rw [he]
          exact ⟨hset, h2⟩
  | remove id res =>
    refine persist_inv (removeTask s id res) ?_
    have hf := idsNodup_filter s.tasks (fun t => t.id != id) h1
    cases hu : s.userId with
    | none =>
      have he : removeTask s id res
          = { s with tasks := s.tasks.filter (fun t => t.id != id) } := by
        simp [removeTask, hu]
      rw [he]
      exact ⟨hf, h2⟩
    | some uid =>
      cases res with
      | error msg =>
        have he : removeTask s id (Except.error msg) = { s with remoteError := msg } := by
          simp [removeTask, hu]
        rw [he]
        exact ⟨h1, h2⟩
      | ok u =>
        have he : removeTask s id (Except.ok u)
            = { s with remoteError := "", tasks := s.tasks.filter (fun t => t.id != id) } := by
          simp [removeTask, hu]
        rw [he]
        exact ⟨hf, h2⟩
  | clear res =>
    refine persist_inv (clearCompleted s res) ?_
    have hf := idsNodup_filter s.tasks (fun t => !t.done) h1
    cases hu : s.userId with
    | none =>
      have he : clearCompleted s res
          = { s with tasks := s.tasks.filter (fun t => !t.done) } := by
        simp [clearCompleted, hu]
      rw [he]
      exact ⟨hf, h2⟩
    | some uid =>
      cases res with
      | error msg =>
        have he : clearCompleted s (Except.error msg) = { s with remoteError := msg } := by
          simp [clearCompleted, hu]
        rw [he]
        exact ⟨h1, h2⟩
      | ok u =>
        have he : clearCompleted s (Except.ok u)
            = { s with remoteError := "", tasks := s.tasks.filter (fun t => !t.done) } := by
          simp [clearCompleted, hu]
        rw [he]
        exact ⟨hf, h2⟩
  | saveEdit id res =>
    refine persist_inv (saveEditing s id res) ?_
    by_cases htrim : s.editingText.trim = ""
    · have he : saveEditing s id res = cancelEditing s := by simp [saveEditing, htrim]
      rw [he]
      exact ⟨h1, h2⟩
    · have hset : idsNodup (setTitle s.tasks id s.editingText.trim) := by
        rw [idsNodup, ids_setTitle]
        exact h1
      cases hu : s.userId with
      | none =>
        have he : saveEditing s id res
            = cancelEditing { s with tasks := setTitle s.tasks id s.editingText.trim } := by
          simp [saveEditing, htrim, hu]
        rw [he]
        exact ⟨hset, h2⟩
      | some uid =>
        cases res with
        | error msg =>
          have he : saveEditing s id (Except.error msg)
              = cancelEditing { s with remoteError := msg } := by
            simp [saveEditing, htrim, hu]
          rw [he]
          exact ⟨h1, h2⟩
        | ok u =>
          have he : saveEditing s id (Except.ok u)
              = cancelEditing { s with remoteError := "",
                                       tasks := setTitle s.tasks id s.editingText.trim } := by
            simp [saveEditing, htrim, hu]
          rw [he]
          exact ⟨hset, h2⟩
  | signIn uid env fetchErr =>
    cases fetchErr with
    | some msg =>
      have he : step s (.signIn uid env (some msg))
          = { s with userId := some uid, remoteError := msg, remoteLoading := false } := by
        simp [step, signInStep]
      rw [he]
      exact ⟨h1, h2⟩
    | none =>
      have hfetch : idsNodup (fetchTasks env uid) := by
        simp only [opOk] at hok
        exact of_decide_eq_true hok
      have he : step s (.signIn uid env none)
          = { s with userId := some uid, tasks := fetchTasks env uid, editingId := none,
                     editingText := "", remoteError := "", remoteLoading := false } := by
        simp [step, signInStep]
      rw [he]
      exact ⟨hfetch, h2⟩
  | signOut =>
    cases hu : s.userId with
    | none =>
      have he : step s .signOut = s := by simp [step, signOutStep, hu]
      rw [he]
      exact ⟨h1, h2⟩
    | some uid =>
      have he : step s .signOut
          = { s with userId := none, remoteError := "", remoteLoading := false,
                     localStore := some s.tasks } := by
        simp [step, signOutStep, hu, persist]
      rw [he]
      exact ⟨h1, fun l hl => by rw [← Option.some.inj hl]; exact h1⟩

/-- C4 amended: in every state reachable by a sequence of events from a state
satisfying the invariant, the task ids are pairwise distinct — provided the
environment-chosen identifiers are fresh: each add's generated id
(`Date.now()` anonymously, the backend row id when authenticated) does not
already occur in the list, and every sign-in load returns rows with distinct
ids.  (The unconditional claim is refuted by `id_uniqueness_counterexample`:
the code never checks freshness.) -/
theorem id_uniqueness (s : AppState) (ops : List Op)
    (h1 : idsNodup s.tasks) (h2 : ∀ l, s.localStore = some l → idsNodup l)
    (hok : traceOk s ops = true) : idsNodup (runOps s ops).tasks := by
  induction ops generalizing s with
  | nil => exact h1
  | cons op rest ih =>
    rw [traceOk, Bool.and_eq_true] at hok
    have hstep := step_inv s op ⟨h1, h2⟩ hok.1
    exact ih (step s op) hstep.1 hstep.2 hok.2

def c4Env : RemoteEnv :=
  { rows := [⟨10, "r", false, 7, 3⟩, ⟨11, "s", true, 7, 5⟩], hasCreatedAt := true }

def c4Trace : List Op := [.toggle 1 (Except.error "x"), .signIn 7 c4Env none, .signOut]

theorem id_uniqueness_witness :
    idsNodup initState.tasks ∧
    (∀ l, initState.localStore = some l → idsNodup l) ∧
    traceOk initState c4Trace = true ∧
    idsNodup (runOps initState c4Trace).tasks := by
  have h2 : ∀ l, initState.localStore = some l → idsNodup l := by
    intro l hl
    have : initialTasks = l := Option.some.inj hl
    rw [← this]
    decide
  exact ⟨by decide, h2, by decide, id_uniqueness initState c4Trace (by decide) h2 (by decide)⟩

/-- Two anonymous adds in the same millisecond (`Date.now()` returning the
same value twice) produce two tasks with the same id: the unconditional
uniqueness claim fails on the code. -/
def c4DupTrace : List Op :=
  [.setText "a", .add 100 (Except.error ""), .setText "b", .add 100 (Except.error "")]

theorem id_uniqueness_counterexample :
    ¬ idsNodup (runOps initState c4DupTrace).tasks := by
  simp +decide [runOps, step, addTask, persist, trim_a, trim_b, idsNodup, initState, initialTasks]

/-! ### Claim C5: the session-boundary transitions -/

def c5Start : AppState :=
  { text := ""
    tasks := [⟨1, "A", false⟩]
    filter := .all
    editingId := none
    editingText := ""
    remoteError := ""
    remoteLoading := false
    localStore := some [⟨1, "A", false⟩]
    userId := none }

/-- Remote rows for user 7 (plus one row of another user): id 12 created at 5,
id 10 created at 9, so creation-time order and id order disagree. -/
def c5Rows : List RemoteRow :=
  [⟨12, "B", true, 7, 5⟩, ⟨10, "C", false, 7, 9⟩, ⟨99, "Z", false, 8, 50⟩]

def c5EnvCA : RemoteEnv := { rows := c5Rows, hasCreatedAt := true }

def c5EnvID : RemoteEnv := { rows := c5Rows, hasCreatedAt := false }

/-- C5 evaluated on a concrete scenario.  Sign-in behaves as claimed: the
in-memory list becomes the user's remote rows newest-first by creation time
(`[C, B]`), falling back to id-descending (`[B, C]`) when the schema lacks
`created_at`.  But on sign-out the displayed list is the remote list, not the
pre-sign-in snapshot `[A]`: the persistence effect runs before the session
effect on the sign-out render, so the remote-sourced list is written to local
storage first and the "restore" then reads it straight back, contradicting the
code's own `Logout: restore local tasks` comment and the spec. -/
theorem session_transition_behaviour :
    (step c5Start (Op.signIn 7 c5EnvCA none)).tasks
      = [⟨10, "C", false⟩, ⟨12, "B", true⟩] ∧
    (step c5Start (Op.signIn 7 c5EnvID none)).tasks
      = [⟨12, "B", true⟩, ⟨10, "C", false⟩] ∧
    (step (step c5Start (Op.signIn 7 c5EnvCA none)) Op.signOut).tasks
      = [⟨10, "C", false⟩, ⟨12, "B", true⟩] ∧
    (step (step c5Start (Op.signIn 7 c5EnvCA none)) Op.signOut).tasks
      ≠ [⟨1, "A", false⟩] ∧
    (step (step c5Start (Op.signIn 7 c5EnvCA none)) Op.signOut).localStore
      = some [⟨10, "C", false⟩, ⟨12, "B", true⟩] := by
  decide

end Todo
